import Mathlib

/-
Verification of the session & streaming-delivery core of the Gbot repository
(src/main.py, src/api/bot.py) against its natural-language specification.

The Python code is shallowly embedded: the Redis key-value store becomes an
explicit `BotState` record (association list for history blobs, list for the
saved-chat set, an `Option String` for the active-chat pointer), and each
command handler becomes a pure Lean function from state to state plus the
user-visible reply.  TTLs and wall-clock time are not modelled; Redis
operations are modelled as succeeding (the fail-soft wrappers in the source
catch store errors and the claims under study concern the non-failing store
behaviour).
-/

namespace Gbot

/-- Source constant `HISTORY_LIMIT = 10` of src/main.py. -/
def HISTORY_LIMIT : Nat := 10

/-- Source constant `DEFAULT_CHAT_NAME = "default"` of src/main.py. -/
def DEFAULT_CHAT_NAME : String := "default"

/-- Source constant `TELEGRAM_MAX_MESSAGE_LENGTH = 4096`. -/
def TELEGRAM_MAX_MESSAGE_LENGTH : Nat := 4096

/-- Conversation role: the source stores `'role': 'user'` or `'role': 'model'`. -/
inductive Role where
  | user
  | model
deriving DecidableEq, Repr

/-- One stored history entry `{'role': r, 'parts': [{'text': t}]}`. -/
structure Turn where
  role : Role
  text : String
deriving DecidableEq, Repr

/-- Lookup in an association list, modelling `redis.get key` on a typed slice
of the key space (`none` = key absent). -/
def kvGet {α : Type} (m : List (String × α)) (k : String) : Option α :=
  (m.find? (fun p => p.1 == k)).map (fun p => p.2)

/-- Modelling `redis.set key v`: overwrite any previous binding of `k`. -/
def kvSet {α : Type} (m : List (String × α)) (k : String) (v : α) :
    List (String × α) :=
  (k, v) :: m.filter (fun p => p.1 != k)

/-- Modelling `redis.delete key`. -/
def kvDel {α : Type} (m : List (String × α)) (k : String) :
    List (String × α) :=
  m.filter (fun p => p.1 != k)

/-- The per-user slice of the Redis store that the session subsystem uses:
`active_chat:{user}` (pointer), `chats:{user}` (saved-chat set, as a
duplicate-free-by-construction list) and the `history:{user}:{name}` blobs
(typed as turn lists; `json.loads` of a stored blob always succeeds on data
the bot itself wrote, and malformed data is read as `[]` by `get_history`). -/
structure BotState where
  activeChat : Option String
  chats : List String
  histories : List (String × List Turn)
deriving DecidableEq, Repr

/-- A fresh store: no keys set. -/
def initState : BotState := { activeChat := none, chats := [], histories := [] }

/-- Source `get_active_chat_name` (src/main.py:165): read `active_chat:{user}`
with default `DEFAULT_CHAT_NAME`. -/
def get_active_chat_name (s : BotState) : String :=
  s.activeChat.getD DEFAULT_CHAT_NAME

/-- Source `get_history` (src/main.py:168): read the active chat's blob;
absent (or malformed) data yields `[]`. -/
def get_history (s : BotState) : List Turn :=
  (kvGet s.histories (get_active_chat_name s)).getD []

/-- Source `update_history` (src/main.py:176): append the `(user, model)`
pair to the active chat's history, truncate to the last `HISTORY_LIMIT`
entries (`history[-HISTORY_LIMIT:]`), and write the blob back. -/
def update_history (s : BotState) (user_message_text model_response_text : String) :
    BotState :=
  let active := get_active_chat_name s
  let history0 := get_history s
  let history1 := history0 ++
    [{ role := Role.user, text := user_message_text },
     { role := Role.model, text := model_response_text }]
  let history2 :=
    if HISTORY_LIMIT < history1.length then
      history1.drop (history1.length - HISTORY_LIMIT)
    else history1
  { s with histories := kvSet s.histories active history2 }

/-- The `(user, model)` pair of turns appended by one exchange. -/
def pairTurns (u m : String) : List Turn :=
  [{ role := Role.user, text := u }, { role := Role.model, text := m }]

/-- The pure history transformer performed by one `update_history` call on
the active chat's stored turn list. -/
def appendTrunc (h : List Turn) (u m : String) : List Turn :=
  if HISTORY_LIMIT < (h ++ pairTurns u m).length then
    (h ++ pairTurns u m).drop ((h ++ pairTurns u m).length - HISTORY_LIMIT)
  else h ++ pairTurns u m

/-- Drop leading and trailing whitespace of a character list; models the
Python `str.strip()` used on chat-name arguments. -/
def stripChars (l : List Char) : List Char :=
  ((l.dropWhile Char.isWhitespace).reverse.dropWhile Char.isWhitespace).reverse

/-- Models the chat-name sanitization `"_".join(args).strip().replace(" ", "_")`
of the source command handlers, applied to the already-joined argument
string: strip surrounding whitespace, then replace each space by `_`. -/
def sanitize (raw : String) : String :=
  ((stripChars raw.toList).map (fun c => if c = ' ' then '_' else c)).asString

/-- Models the Python truthiness test `not text or not text.strip()`:
a string is blank iff all of its characters are whitespace. -/
def isBlank (t : String) : Bool :=
  t.toList.all Char.isWhitespace

/-- The distinct user-visible replies produced by the session command
handlers (each constructor stands for one literal message of the source). -/
inductive Reply where
  | saveUsage
  | sourceEmpty
  | savedAndActive (name : String)
  | loadUsage
  | chatNotFound (name : String)
  | chatLoaded (name : String)
  | cannotDeleteDefault
  | deletedAndSwitched (name : String)
  | deletedOnly (name : String)
deriving DecidableEq, Repr

/-- Source `save_chat_command` (src/main.py:360): reject an empty or
reserved name; reject when the active chat has no stored blob (the raw
`r_get` result is falsy exactly when the key is absent, since a stored
blob is the non-empty `json.dumps` of a turn list); otherwise copy the
blob under the new name, `sadd` the name to the saved-chat set, and make
it the active chat. -/
def save_chat_command (s : BotState) (raw : String) : BotState × Reply :=
  if sanitize raw = "" ∨ sanitize raw = DEFAULT_CHAT_NAME then
    (s, Reply.saveUsage)
  else
    match kvGet s.histories (get_active_chat_name s) with
    | none => (s, Reply.sourceEmpty)
    | some h =>
      ({ s with
          histories := kvSet s.histories (sanitize raw) h,
          chats := if sanitize raw ∈ s.chats then s.chats else sanitize raw :: s.chats,
          activeChat := some (sanitize raw) },
       Reply.savedAndActive (sanitize raw))

/-- Source `load_chat_command` (src/main.py:379): reject an empty name;
reject a name that is neither the reserved default nor saved; otherwise
switch the active-chat pointer. -/
def load_chat_command (s : BotState) (raw : String) : BotState × Reply :=
  if sanitize raw = "" then
    (s, Reply.loadUsage)
  else if sanitize raw ≠ DEFAULT_CHAT_NAME ∧ sanitize raw ∉ s.chats then
    (s, Reply.chatNotFound (sanitize raw))
  else
    ({ s with activeChat := some (sanitize raw) }, Reply.chatLoaded (sanitize raw))

/-- Source `delete_chat_command` (src/main.py:419): refuse an empty or
reserved name; report an unknown name; otherwise delete the blob, `srem`
the name from the saved-chat set, and reset the active pointer to the
default chat when the deleted chat was active.  (The source reads the
active pointer after the blob/set deletions; neither deletion touches the
pointer, so the read equals `get_active_chat_name s`.) -/
def delete_chat_command (s : BotState) (raw : String) : BotState × Reply :=
  if sanitize raw = "" ∨ sanitize raw = DEFAULT_CHAT_NAME then
    (s, Reply.cannotDeleteDefault)
  else if sanitize raw ∉ s.chats then
    (s, Reply.chatNotFound (sanitize raw))
  else if get_active_chat_name s = sanitize raw then
    ({ s with
        histories := kvDel s.histories (sanitize raw),
        chats := s.chats.filter (fun c => c != sanitize raw),
        activeChat := some DEFAULT_CHAT_NAME },
     Reply.deletedAndSwitched (sanitize raw))
  else
    ({ s with
        histories := kvDel s.histories (sanitize raw),
        chats := s.chats.filter (fun c => c != sanitize raw) },
     Reply.deletedOnly (sanitize raw))

/-- Source `new_chat_command` (src/main.py:349): point the user at the
default chat and clear its blob. -/
def new_chat_command (s : BotState) : BotState :=
  { s with
      activeChat := some DEFAULT_CHAT_NAME,
      histories := kvDel s.histories DEFAULT_CHAT_NAME }

/-- One session operation of the kind claim C3 quantifies over: save-as,
load/switch, or delete, each with the raw chat-name argument string. -/
inductive SessionOp where
  | save (raw : String)
  | load (raw : String)
  | del (raw : String)
deriving Repr

/-- Apply one session operation to the store state. -/
def applySessionOp (s : BotState) (op : SessionOp) : BotState :=
  match op with
  | SessionOp.save raw => (save_chat_command s raw).1
  | SessionOp.load raw => (load_chat_command s raw).1
  | SessionOp.del raw => (delete_chat_command s raw).1

/-- The C3 invariant: the resolved active chat name is the reserved default
or a member of the user's saved-chat set. -/
def activeValid (s : BotState) : Prop :=
  get_active_chat_name s = DEFAULT_CHAT_NAME ∨ get_active_chat_name s ∈ s.chats

/-- Parse mode of an outbound Telegram send: `parse_mode=ParseMode.HTML`, or
no parse mode (plain text). -/
inductive PMode where
  | html
  | plain
deriving DecidableEq, Repr

/-- Why an outbound send raised: a markup/formatting parse error, or any
other Telegram error. -/
inductive SendErr where
  | parse
  | net
deriving DecidableEq, Repr

/-- Categories of fixed user-visible notices sent by the streaming handler. -/
inductive Notice where
  | noContent
  | genError
deriving DecidableEq, Repr

/-- Observable outbound actions of a handler (message traffic), plus a
marker for store traffic performed by an arbitrary guarded handler body. -/
inductive Action where
  | placeholder
  | editPh (text : String)
  | deletePh
  | send (text : String) (mode : PMode)
  | notice (n : Notice)
  | refusalReply
  | refusalAlert
  | storeOp
deriving DecidableEq, Repr

/-- The environment's verdict on each outbound `reply_text(text, mode)`
attempt: `none` = delivered, `some e` = the Telegram call raised `e`. -/
structure SendEnv where
  send : String → PMode → Option SendErr

/-- Split a character list into consecutive pieces of at most
`TELEGRAM_MAX_MESSAGE_LENGTH` characters (the `range(0, len(text), LIMIT)`
slicing of `send_long_message`); the first argument is recursion fuel,
instantiated with the list length. -/
def chunksAux : Nat → List Char → List (List Char)
  | 0, _ => []
  | _, [] => []
  | fuel + 1, l =>
    l.take TELEGRAM_MAX_MESSAGE_LENGTH ::
      chunksAux fuel (l.drop TELEGRAM_MAX_MESSAGE_LENGTH)

/-- The chunks of `text` that `send_long_message` iterates over. -/
def chunkify (text : String) : List String :=
  (chunksAux text.toList.length text.toList).map List.asString

/-- Send the chunks in order, each with `parse_mode=ParseMode.HTML`;
the trace records every attempt, and the first raised error aborts the
remaining sends and propagates (second component). -/
def sendChunksHTML (env : SendEnv) : List String → List Action × Option SendErr
  | [] => ([], none)
  | c :: rest =>
    match env.send c PMode.html with
    | none =>
      let r := sendChunksHTML env rest
      (Action.send c PMode.html :: r.1, r.2)
    | some e => ([Action.send c PMode.html], some e)

/-- Source `send_long_message` (src/main.py:148): nothing is sent for a
blank text; otherwise the text is sent as HTML-formatted chunks of at most
`TELEGRAM_MAX_MESSAGE_LENGTH` characters, and an exception from any chunk
send propagates to the caller unchanged — there is no retry of a failed
chunk in any mode.  (The inter-chunk `asyncio.sleep(0.2)` is not
modelled.) -/
def send_long_message (env : SendEnv) (text : String) :
    List Action × Option SendErr :=
  if isBlank text then ([], none)
  else sendChunksHTML env (chunkify text)

/-- One event of the model's fragment stream: a chunk carrying the given
text (`""` for a chunk whose `text` attribute is absent or falsy), or the
stream raising mid-iteration. -/
inductive Ev where
  | frag (t : String)
  | err
deriving DecidableEq, Repr

/-- Models the `async for chunk in response_stream` loop of
`handle_gemini_response_stream` (src/main.py:546): accumulate the non-empty
fragment texts; occasionally edit the placeholder with the running buffer
plus a typing mark, but only when the buffer still fits well under the
message-length limit.  The wall-clock rate gate
`current_time - last_update_time > update_interval` is abstracted by the
oracle `gate`, indexed by fragment position; a failed edit is swallowed by
the source (`except Exception: pass`) and is irrelevant to the recorded
trace.  Returns the accumulated text, the edit actions, and whether
fragment production raised. -/
def streamLoop (gate : Nat → Bool) :
    List Ev → Nat → String → String × List Action × Bool
  | [], _, acc => (acc, [], false)
  | Ev.err :: _, _, acc => (acc, [], true)
  | Ev.frag t :: rest, i, acc =>
    if t = "" then
      streamLoop gate rest (i + 1) acc
    else
      ((streamLoop gate rest (i + 1) (acc ++ t)).1,
       (if gate i ∧ (acc ++ t).length < TELEGRAM_MAX_MESSAGE_LENGTH - 10 then
          [Action.editPh (acc ++ t ++ " ✍️")]
        else []) ++ (streamLoop gate rest (i + 1) (acc ++ t)).2.1,
       (streamLoop gate rest (i + 1) (acc ++ t)).2.2)

/-- Source `handle_gemini_response_stream` (src/main.py:536): create a
placeholder, consume the stream with rate-limited placeholder edits, then
delete the placeholder and either (a) send the fixed no-content notice when
the accumulated text is blank, or (b) deliver the text via
`send_long_message` and persist the `(user, model)` pair with
`update_history`.  Any exception — the stream raising mid-iteration or a
chunk send failing — lands in the `except` clause, which attempts to delete
the placeholder and sends a generic error notice, leaving the history
untouched.  The placeholder creation and the notice sends are modelled as
succeeding. -/
def handle_gemini_response_stream (env : SendEnv) (gate : Nat → Bool)
    (evs : List Ev) (user_message_text : String) (s : BotState) :
    List Action × BotState :=
  if (streamLoop gate evs 0 "").2.2 then
    (Action.placeholder :: (streamLoop gate evs 0 "").2.1 ++
       [Action.deletePh, Action.notice Notice.genError], s)
  else if isBlank (streamLoop gate evs 0 "").1 then
    (Action.placeholder :: (streamLoop gate evs 0 "").2.1 ++
       [Action.deletePh, Action.notice Notice.noContent], s)
  else
    match send_long_message env (streamLoop gate evs 0 "").1 with
    | (acts, none) =>
      (Action.placeholder :: (streamLoop gate evs 0 "").2.1 ++
         [Action.deletePh] ++ acts,
       update_history s user_message_text (streamLoop gate evs 0 "").1)
    | (acts, some _) =>
      (Action.placeholder :: (streamLoop gate evs 0 "").2.1 ++
         [Action.deletePh] ++ acts ++
         [Action.deletePh, Action.notice Notice.genError],
       s)

/-- The text accumulated from a fragment stream: the concatenation of the
fragment texts. -/
def accumText : List Ev → String
  | [] => ""
  | Ev.frag t :: rest => t ++ accumText rest
  | Ev.err :: rest => accumText rest

/-- Kind of inbound interaction, distinguishing the two refusal shapes of
the `restricted` decorator. -/
inductive Interaction where
  | message
  | callback
deriving DecidableEq, Repr

/-- The fixed refusal of the `restricted` decorator: a reply for direct
messages, an alert for button callbacks. -/
def refusal (kind : Interaction) : Action :=
  match kind with
  | Interaction.message => Action.refusalReply
  | Interaction.callback => Action.refusalAlert

/-- Source decorator `restricted` (src/main.py:116, src/api/bot.py:56):
when the user id is not in the static allow-list, answer with the fixed
refusal and return without invoking the wrapped handler; otherwise run the
wrapped handler. -/
def restricted (allowed : List Nat)
    (handler : Nat → Interaction → BotState → BotState × List Action)
    (user_id : Nat) (kind : Interaction) (s : BotState) :
    BotState × List Action :=
  if user_id ∈ allowed then handler user_id kind s
  else (s, [refusal kind])

/-- Iterate `appendTrunc` over a list of `(user_text, model_text)` pairs. -/
def foldAppend (h : List Turn) (ps : List (String × String)) : List Turn :=
  ps.foldl (fun a p => appendTrunc a p.1 p.2) h

/-- The full turn sequence a list of appended pairs stands for. -/
def turnsOfPairs (ps : List (String × String)) : List Turn :=
  (ps.map (fun p => pairTurns p.1 p.2)).flatten

/-- The store state after a sequence of `update_history` calls on a fresh
`(user, chat)` history. -/
def appendPairFold (ps : List (String × String)) : BotState :=
  ps.foldl (fun s p => update_history s p.1 p.2) initState

/-- Well-formedness of the history slice: every stored blob is non-empty
(every writer of a history blob in the source stores a non-empty turn
list, so an absent key is the only way a chat's history can be empty). -/
def histOk (s : BotState) : Prop :=
  ∀ n h, kvGet s.histories n = some h → h ≠ []

/-- Witness fixture: an outbound channel where every send succeeds. -/
def envOk : SendEnv := { send := fun _ _ => none }

/-- Witness fixture: an outbound channel where every send raises a
markup/formatting parse error. -/
def envParseFail : SendEnv := { send := fun _ _ => some SendErr.parse }

/-- Witness fixture: a rate gate that never allows an intermediate edit. -/
def gateOff : Nat → Bool := fun _ => false

/-- Witness fixture: a state with one saved chat `work`, active, holding
one exchange. -/
def demoState : BotState :=
  { activeChat := some "work",
    chats := ["work"],
    histories := [("work", pairTurns "hi" "hello")] }

/-- Witness fixture: a handler body that reads and writes the store, used
to show the auth gate never reaches the body for a rejected user. -/
def demoHandler : Nat → Interaction → BotState → BotState × List Action :=
  fun _ _ s => (update_history s "q" "a", [Action.storeOp])

/-! Supporting lemmas about the key-value model and the history fold. -/

theorem kvGet_kvSet_self {α : Type} (m : List (String × α)) (k : String) (v : α) :
    kvGet (kvSet m k v) k = some v := by
  simp [kvGet, kvSet]

theorem kvGet_kvDel_self {α : Type} (m : List (String × α)) (k : String) :
    kvGet (kvDel m k) k = none := by
  have hf : (kvDel m k).find? (fun p => p.1 == k) = none := by
    rw [List.find?_eq_none]
    intro x hx
    rw [kvDel, List.mem_filter] at hx
    simpa using hx.2
  rw [kvGet, hf]
  rfl

theorem update_history_histories (s : BotState) (u m : String) :
    (update_history s u m).histories =
      kvSet s.histories (get_active_chat_name s) (appendTrunc (get_history s) u m) := rfl

theorem update_history_activeChat (s : BotState) (u m : String) :
    (update_history s u m).activeChat = s.activeChat := rfl

theorem get_history_update (s : BotState) (u m : String) :
    get_history (update_history s u m) = appendTrunc (get_history s) u m := by
  show (kvGet (update_history s u m).histories
      (get_active_chat_name (update_history s u m))).getD [] = _
  have ha : get_active_chat_name (update_history s u m) = get_active_chat_name s := rfl
  rw [ha, update_history_histories, kvGet_kvSet_self]
  rfl

theorem appendTrunc_suffix (h : List Turn) (u m : String) :
    appendTrunc h u m <:+ h ++ pairTurns u m := by
  unfold appendTrunc
  split_ifs
  · exact List.drop_suffix _ _
  · exact List.suffix_refl _

theorem appendTrunc_length (h : List Turn) (u m : String)
    (hle : h.length ≤ HISTORY_LIMIT) :
    (appendTrunc h u m).length = min (h.length + 2) HISTORY_LIMIT := by
  unfold appendTrunc
  have hp : (h ++ pairTurns u m).length = h.length + 2 := by
    simp [pairTurns]
  split_ifs with hc
  · rw [List.length_drop, hp]
    rw [hp] at hc
    omega
  · rw [hp]
    rw [hp] at hc
    omega

theorem suffix_append_right {α : Type} {l₁ l₂ : List α} (t : List α)
    (h : l₁ <:+ l₂) : l₁ ++ t <:+ l₂ ++ t := by
  obtain ⟨w, hw⟩ := h
  exact ⟨w, by rw [← hw, List.append_assoc]⟩

theorem foldAppend_suffix (ps : List (String × String)) : ∀ h : List Turn,
    foldAppend h ps <:+ h ++ turnsOfPairs ps := by
  induction ps with
  | nil =>
    intro h
    simp [foldAppend, turnsOfPairs]
  | cons p ps ih =>
    intro h
    have h1 : foldAppend h (p :: ps) = foldAppend (appendTrunc h p.1 p.2) ps := rfl
    have h3 : appendTrunc h p.1 p.2 ++ turnsOfPairs ps <:+
        (h ++ pairTurns p.1 p.2) ++ turnsOfPairs ps :=
      suffix_append_right _ (appendTrunc_suffix h p.1 p.2)
    have h4 : (h ++ pairTurns p.1 p.2) ++ turnsOfPairs ps = h ++ turnsOfPairs (p :: ps) := by
      simp [turnsOfPairs, List.append_assoc]
    rw [h1]
    exact ((ih (appendTrunc h p.1 p.2)).trans (h4 ▸ h3))

theorem foldAppend_length (ps : List (String × String)) : ∀ h : List Turn,
    h.length ≤ HISTORY_LIMIT →
    (foldAppend h ps).length = min (h.length + 2 * ps.length) HISTORY_LIMIT := by
  induction ps with
  | nil =>
    intro h hle
    simp only [foldAppend, List.foldl_nil, List.length_nil]
    omega
  | cons p ps ih =>
    intro h hle
    have h1 : foldAppend h (p :: ps) = foldAppend (appendTrunc h p.1 p.2) ps := rfl
    have hlen := appendTrunc_length h p.1 p.2 hle
    have hle2 : (appendTrunc h p.1 p.2).length ≤ HISTORY_LIMIT := by omega
    rw [h1, ih _ hle2, hlen]
    simp only [List.length_cons]
    omega

theorem get_history_foldl (ps : List (String × String)) : ∀ s : BotState,
    get_history (ps.foldl (fun a p => update_history a p.1 p.2) s) =
      foldAppend (get_history s) ps := by
  induction ps with
  | nil => intro s; rfl
  | cons p ps ih =>
    intro s
    simp only [List.foldl_cons]
    rw [ih (update_history s p.1 p.2), get_history_update]
    rfl

/-- C1: for every sequence of append-pair calls on a fresh `(user, chat)`
history, a subsequent read returns at most `HISTORY_LIMIT` pairs, the read
sequence has exactly `min (2 * n) HISTORY_LIMIT` entries, and it is the
final segment of the appended turns in append order — i.e. when the limit
is exceeded the oldest pairs are dropped first, never the newest. -/
theorem history_read_bounded_fifo (ps : List (String × String)) :
    (get_history (appendPairFold ps)).length / 2 ≤ HISTORY_LIMIT ∧
    (get_history (appendPairFold ps)).length = min (2 * ps.length) HISTORY_LIMIT ∧
    get_history (appendPairFold ps) =
      (turnsOfPairs ps).drop
        ((turnsOfPairs ps).length - (get_history (appendPairFold ps)).length) := by
  have hge : get_history (appendPairFold ps) = foldAppend [] ps :=
    get_history_foldl ps initState
  have hlen : (foldAppend [] ps).length = min (2 * ps.length) HISTORY_LIMIT := by
    have := foldAppend_length ps [] (by simp [HISTORY_LIMIT])
    simpa using this
  have hsuf : foldAppend [] ps <:+ turnsOfPairs ps := by
    simpa using foldAppend_suffix ps []
  obtain ⟨t, ht⟩ := hsuf
  refine ⟨?_, ?_, ?_⟩
  · rw [hge, hlen]
    omega
  · rw [hge, hlen]
  · rw [hge, ← ht]
    have hl : (t ++ foldAppend [] ps).length - (foldAppend [] ps).length = t.length := by
      simp [List.length_append]
    rw [hl, List.drop_left]

/-- C2: appending the pair `(U, M)` to any prior history state and then
reading yields a sequence whose last two entries are exactly the user turn
`U` followed by the model turn `M`. -/
theorem append_pair_round_trip (s : BotState) (u m : String) :
    ∃ t, get_history (update_history s u m) =
      t ++ [{ role := Role.user, text := u }, { role := Role.model, text := m }] := by
  show ∃ t, get_history (update_history s u m) = t ++ pairTurns u m
  rw [get_history_update]
  unfold appendTrunc
  split_ifs with hc
  · refine ⟨(get_history s).drop
      ((get_history s ++ pairTurns u m).length - HISTORY_LIMIT), ?_⟩
    rw [List.drop_append_eq_append_drop]
    have h0 : (get_history s ++ pairTurns u m).length - HISTORY_LIMIT -
        (get_history s).length = 0 := by
      simp only [List.length_append, pairTurns, List.length_cons, List.length_nil,
        HISTORY_LIMIT]
      omega
    rw [h0, List.drop_zero]
  · exact ⟨get_history s, rfl⟩

/-! The active-chat invariant (claim C3) and the session-command claims. -/

theorem activeValid_save (s : BotState) (raw : String) (h : activeValid s) :
    activeValid (save_chat_command s raw).1 := by
  unfold save_chat_command
  by_cases h1 : sanitize raw = "" ∨ sanitize raw = DEFAULT_CHAT_NAME
  · rw [if_pos h1]; exact h
  · rw [if_neg h1]
    cases hk : kvGet s.histories (get_active_chat_name s) with
    | none => exact h
    | some hist =>
      show sanitize raw = DEFAULT_CHAT_NAME ∨
        sanitize raw ∈ (if sanitize raw ∈ s.chats then s.chats else sanitize raw :: s.chats)
      right
      by_cases hm : sanitize raw ∈ s.chats
      · rw [if_pos hm]; exact hm
      · rw [if_neg hm]; exact List.mem_cons_self _ _

theorem activeValid_load (s : BotState) (raw : String) (h : activeValid s) :
    activeValid (load_chat_command s raw).1 := by
  unfold load_chat_command
  by_cases h1 : sanitize raw = ""
  · rw [if_pos h1]; exact h
  · rw [if_neg h1]
    by_cases h2 : sanitize raw ≠ DEFAULT_CHAT_NAME ∧ sanitize raw ∉ s.chats
    · rw [if_pos h2]; exact h
    · rw [if_neg h2]
      push_neg at h2
      show sanitize raw = DEFAULT_CHAT_NAME ∨ sanitize raw ∈ s.chats
      by_cases hd : sanitize raw = DEFAULT_CHAT_NAME
      · exact Or.inl hd
      · exact Or.inr (h2 hd)

theorem activeValid_delete (s : BotState) (raw : String) (h : activeValid s) :
    activeValid (delete_chat_command s raw).1 := by
  unfold delete_chat_command
  by_cases h1 : sanitize raw = "" ∨ sanitize raw = DEFAULT_CHAT_NAME
  · rw [if_pos h1]; exact h
  · rw [if_neg h1]
    by_cases h2 : sanitize raw ∉ s.chats
    · rw [if_pos h2]; exact h
    · rw [if_neg h2]
      by_cases h3 : get_active_chat_name s = sanitize raw
      · rw [if_pos h3]
        exact Or.inl rfl
      · rw [if_neg h3]
        rcases h with hd | hm
        · exact Or.inl hd
        · right
          show get_active_chat_name s ∈ s.chats.filter (fun c => c != sanitize raw)
          rw [List.mem_filter]
          exact ⟨hm, bne_iff_ne.mpr h3⟩

theorem activeValid_step (s : BotState) (op : SessionOp) (h : activeValid s) :
    activeValid (applySessionOp s op) := by
  cases op with
  | save raw => exact activeValid_save s raw h
  | load raw => exact activeValid_load s raw h
  | del raw => exact activeValid_delete s raw h

theorem activeValid_foldl (ops : List SessionOp) : ∀ s : BotState,
    activeValid s → activeValid (ops.foldl applySessionOp s) := by
  induction ops with
  | nil => intro s hs; exact hs
  | cons op ops ih =>
    intro s hs
    simp only [List.foldl_cons]
    exact ih _ (activeValid_step s op hs)

/-- C3: after every sequence of session operations (save-as, load/switch,
delete) from a fresh store, the active chat name resolved for the user is
always the reserved default name or a member of the user's saved-chat set. -/
theorem active_chat_member_invariant (ops : List SessionOp) :
    activeValid (ops.foldl applySessionOp initState) :=
  activeValid_foldl ops initState (Or.inl rfl)

/-- C7: `save_chat` is rejected with no state change — only a user-visible
message — whenever the source (active) history is empty or the requested
name sanitizes to the reserved default name.  The well-formedness
hypothesis `histOk` records that every stored blob is non-empty, which
holds for everything the bot writes; under it, an empty source history is
exactly an absent blob, which is what the source's falsiness test on the
raw `r_get` result detects. -/
theorem save_chat_rejected_no_state_change (s : BotState) (raw : String)
    (hwf : histOk s)
    (hrej : get_history s = [] ∨ sanitize raw = DEFAULT_CHAT_NAME) :
    (save_chat_command s raw).1 = s ∧
    ((save_chat_command s raw).2 = Reply.saveUsage ∨
     (save_chat_command s raw).2 = Reply.sourceEmpty) := by
  unfold save_chat_command
  by_cases h1 : sanitize raw = "" ∨ sanitize raw = DEFAULT_CHAT_NAME
  · rw [if_pos h1]
    exact ⟨rfl, Or.inl rfl⟩
  · rw [if_neg h1]
    have hd : sanitize raw ≠ DEFAULT_CHAT_NAME := fun hh => h1 (Or.inr hh)
    have hhist : get_history s = [] := hrej.resolve_right hd
    have hnone : kvGet s.histories (get_active_chat_name s) = none := by
      cases hk : kvGet s.histories (get_active_chat_name s) with
      | none => rfl
      | some hh =>
        have hne : hh ≠ [] := hwf _ _ hk
        unfold get_history at hhist
        rw [hk] at hhist
        exact absurd hhist hne
    rw [hnone]
    exact ⟨rfl, Or.inr rfl⟩

/-- C8: `delete_chat` refuses to delete the reserved default name; for a
saved chat name it deletes the history blob, removes the name from the
saved-chat set (so the chat listing no longer contains it), and resets the
active pointer to the reserved default exactly when the deleted chat was
active, leaving the pointer unchanged otherwise. -/
theorem delete_chat_spec (s : BotState) (raw : String) :
    (sanitize raw = DEFAULT_CHAT_NAME →
      delete_chat_command s raw = (s, Reply.cannotDeleteDefault)) ∧
    (sanitize raw ≠ "" → sanitize raw ≠ DEFAULT_CHAT_NAME → sanitize raw ∈ s.chats →
      kvGet (delete_chat_command s raw).1.histories (sanitize raw) = none ∧
      sanitize raw ∉ (delete_chat_command s raw).1.chats ∧
      (get_active_chat_name s = sanitize raw →
        (delete_chat_command s raw).1.activeChat = some DEFAULT_CHAT_NAME) ∧
      (get_active_chat_name s ≠ sanitize raw →
        (delete_chat_command s raw).1.activeChat = s.activeChat)) := by
  constructor
  · intro hd
    unfold delete_chat_command
    rw [if_pos (Or.inr hd)]
  · intro h1 h2 h3
    unfold delete_chat_command
    rw [if_neg (not_or.mpr ⟨h1, h2⟩), if_neg (not_not_intro h3)]
    by_cases ha : get_active_chat_name s = sanitize raw
    · rw [if_pos ha]
      refine ⟨kvGet_kvDel_self s.histories (sanitize raw), ?_, fun _ => rfl,
        fun hne => absurd ha hne⟩
      show sanitize raw ∉ s.chats.filter (fun c => c != sanitize raw)
      simp [List.mem_filter]
    · rw [if_neg ha]
      refine ⟨kvGet_kvDel_self s.histories (sanitize raw), ?_, fun heq => absurd heq ha,
        fun _ => rfl⟩
      show sanitize raw ∉ s.chats.filter (fun c => c != sanitize raw)
      simp [List.mem_filter]

/-- C8 witness: deleting the active saved chat `work` of `demoState`
removes its blob and its saved-set entry and resets the active pointer to
the default; deleting the default name is refused. -/
theorem delete_chat_spec_witness :
    delete_chat_command demoState "default" = (demoState, Reply.cannotDeleteDefault) ∧
    kvGet (delete_chat_command demoState "work").1.histories (sanitize "work") = none ∧
    sanitize "work" ∉ (delete_chat_command demoState "work").1.chats ∧
    (delete_chat_command demoState "work").1.activeChat = some DEFAULT_CHAT_NAME := by
  have t1 := (delete_chat_spec demoState "default").1 (by decide)
  have t2 := (delete_chat_spec demoState "work").2 (by decide) (by decide) (by decide)
  exact ⟨t1, t2.1, t2.2.1, t2.2.2.1 (by decide)⟩

/-- C7 witness: on a fresh store (empty source history), saving under any
name is rejected and the state is unchanged. -/
theorem save_chat_rejected_no_state_change_witness :
    (save_chat_command initState "proj").1 = initState ∧
    ((save_chat_command initState "proj").2 = Reply.saveUsage ∨
     (save_chat_command initState "proj").2 = Reply.sourceEmpty) :=
  save_chat_rejected_no_state_change initState "proj"
    (fun n h hx => by simp [kvGet, initState] at hx)
    (Or.inl (by decide))

/-- C10: deleting a chat whose (sanitized) name is non-empty, not the
reserved default, and not in the user's saved-chat set is a no-op on the
store: the state is returned unchanged together with only the
chat-not-found message. -/
theorem delete_unknown_chat_noop (s : BotState) (raw : String)
    (h1 : sanitize raw ≠ "") (h2 : sanitize raw ≠ DEFAULT_CHAT_NAME)
    (h3 : sanitize raw ∉ s.chats) :
    delete_chat_command s raw = (s, Reply.chatNotFound (sanitize raw)) := by
  unfold delete_chat_command
  rw [if_neg (not_or.mpr ⟨h1, h2⟩), if_pos h3]

/-- C10 witness: deleting the unknown chat `ghost` on a fresh store
returns the state unchanged with the chat-not-found message. -/
theorem delete_unknown_chat_noop_witness :
    delete_chat_command initState "ghost" = (initState, Reply.chatNotFound (sanitize "ghost")) :=
  delete_unknown_chat_noop initState "ghost" (by decide) (by decide) (by decide)

/-- C9: for a user id outside the static allow-list, the guarded handler
returns the state untouched and emits exactly the fixed refusal (a reply
for messages, an alert for button callbacks) — in particular the wrapped
handler body, and with it every store operation, is never reached. -/
theorem auth_gate_short_circuit (allowed : List Nat)
    (handler : Nat → Interaction → BotState → BotState × List Action)
    (user_id : Nat) (kind : Interaction) (s : BotState)
    (h : user_id ∉ allowed) :
    restricted allowed handler user_id kind s = (s, [refusal kind]) ∧
    Action.storeOp ∉ (restricted allowed handler user_id kind s).2 := by
  have hr : restricted allowed handler user_id kind s = (s, [refusal kind]) := by
    unfold restricted
    rw [if_neg h]
  refine ⟨hr, ?_⟩
  rw [hr]
  cases kind <;> simp [refusal]

/-- C9 witness: a disallowed user id hitting a handler body that would
read and write the store gets only the fixed refusal and an unchanged
state. -/
theorem auth_gate_short_circuit_witness :
    restricted [7, 8] demoHandler 42 Interaction.message initState =
      (initState, [Action.refusalReply]) :=
  (auth_gate_short_circuit [7, 8] demoHandler 42 Interaction.message initState
    (by decide)).1

/-! The streaming renderer (claims C4, C5, C6). -/

theorem streamLoop_ok (gate : Nat → Bool) : ∀ (evs : List Ev) (i : Nat) (acc : String),
    Ev.err ∉ evs →
    (streamLoop gate evs i acc).1 = acc ++ accumText evs ∧
    (streamLoop gate evs i acc).2.2 = false := by
  intro evs
  induction evs with
  | nil =>
    intro i acc h
    simp [streamLoop, accumText]
  | cons e rest ih =>
    intro i acc h
    cases e with
    | err => exact absurd (List.mem_cons_self _ _) h
    | frag t =>
      have hrest : Ev.err ∉ rest := fun hm => h (List.mem_cons_of_mem _ hm)
      by_cases ht : t = ""
      · subst ht
        simp only [streamLoop, if_pos rfl, accumText]
        have := ih (i + 1) acc hrest
        rw [String.empty_append]
        exact this
      · simp only [streamLoop, if_neg ht, accumText]
        have := ih (i + 1) (acc ++ t) hrest
        rw [String.append_assoc] at this
        exact this

theorem streamLoop_err (gate : Nat → Bool) : ∀ (evs : List Ev) (i : Nat) (acc : String),
    Ev.err ∈ evs →
    (streamLoop gate evs i acc).2.2 = true := by
  intro evs
  induction evs with
  | nil =>
    intro i acc h
    exact absurd h (List.not_mem_nil _)
  | cons e rest ih =>
    intro i acc h
    cases e with
    | err => rfl
    | frag t =>
      have hrest : Ev.err ∈ rest := by
        rcases List.mem_cons.mp h with h1 | h2
        · exact absurd h1 (by simp)
        · exact h2
      by_cases ht : t = ""
      · subst ht
        simp only [streamLoop, if_pos rfl]
        exact ih (i + 1) acc hrest
      · simp only [streamLoop, if_neg ht]
        exact ih (i + 1) (acc ++ t) hrest

theorem streamLoop_edits (gate : Nat → Bool) : ∀ (evs : List Ev) (i : Nat) (acc : String)
    (a : Action), a ∈ (streamLoop gate evs i acc).2.1 → ∃ t, a = Action.editPh t := by
  intro evs
  induction evs with
  | nil =>
    intro i acc a ha
    simp [streamLoop] at ha
  | cons e rest ih =>
    intro i acc a ha
    cases e with
    | err => simp [streamLoop] at ha
    | frag t =>
      by_cases ht : t = ""
      · rw [ht] at ha
        simp only [streamLoop, if_pos rfl] at ha
        exact ih (i + 1) acc a ha
      · simp only [streamLoop, if_neg ht] at ha
        rcases List.mem_append.mp ha with h1 | h2
        · by_cases hg : gate i ∧ (acc ++ t).length < TELEGRAM_MAX_MESSAGE_LENGTH - 10
          · rw [if_pos hg] at h1
            exact ⟨_, List.mem_singleton.mp h1⟩
          · rw [if_neg hg] at h1
            exact absurd h1 (List.not_mem_nil _)
        · exact ih (i + 1) (acc ++ t) a h2

theorem sendChunksHTML_modes (env : SendEnv) : ∀ (cs : List String) (a : Action),
    a ∈ (sendChunksHTML env cs).1 → ∃ c, a = Action.send c PMode.html := by
  intro cs
  induction cs with
  | nil =>
    intro a ha
    simp [sendChunksHTML] at ha
  | cons c rest ih =>
    intro a ha
    simp only [sendChunksHTML] at ha
    cases hsend : env.send c PMode.html with
    | none =>
      rw [hsend] at ha
      rcases List.mem_cons.mp ha with h1 | h2
      · exact ⟨c, h1⟩
      · exact ih a h2
    | some e =>
      rw [hsend] at ha
      exact ⟨c, List.mem_singleton.mp ha⟩

theorem send_long_message_modes (env : SendEnv) (text : String) (a : Action)
    (ha : a ∈ (send_long_message env text).1) : ∃ c, a = Action.send c PMode.html := by
  unfold send_long_message at ha
  by_cases hb : isBlank text
  · rw [if_pos hb] at ha
    exact absurd ha (List.not_mem_nil _)
  · rw [if_neg hb] at ha
    exact sendChunksHTML_modes env _ a ha

/-- C5: a fragment stream that completes without error but accumulates only
blank text makes the renderer send the fixed no-content notice; no
finalization chunk is ever sent and no history pair is appended (the store
state is returned unchanged). -/
theorem blank_stream_no_content_notice (env : SendEnv) (gate : Nat → Bool)
    (evs : List Ev) (user : String) (s : BotState)
    (hne : Ev.err ∉ evs) (hb : isBlank (accumText evs) = true) :
    (handle_gemini_response_stream env gate evs user s).2 = s ∧
    Action.notice Notice.noContent ∈ (handle_gemini_response_stream env gate evs user s).1 ∧
    ∀ text mode, Action.send text mode ∉ (handle_gemini_response_stream env gate evs user s).1 := by
  have hok := streamLoop_ok gate evs 0 "" hne
  have hfull : (streamLoop gate evs 0 "").1 = accumText evs := by
    rw [hok.1, String.empty_append]
  have htr : handle_gemini_response_stream env gate evs user s =
      (Action.placeholder :: (streamLoop gate evs 0 "").2.1 ++
        [Action.deletePh, Action.notice Notice.noContent], s) := by
    unfold handle_gemini_response_stream
    rw [hok.2, hfull, hb]
    simp
  rw [htr]
  refine ⟨rfl, by simp, ?_⟩
  intro text mode hmem
  rcases List.mem_cons.mp hmem with h1 | h1
  · exact Action.noConfusion h1
  rcases List.mem_append.mp h1 with h2 | h2
  · obtain ⟨t, hts⟩ := streamLoop_edits gate evs 0 "" _ h2
    exact Action.noConfusion hts
  · simp at h2

/-- C5 witness: the one-fragment stream whose only text is a single space
yields the no-content notice and an unchanged store. -/
theorem blank_stream_no_content_notice_witness :
    (handle_gemini_response_stream envOk gateOff [Ev.frag " "] "u" initState).2 = initState ∧
    Action.notice Notice.noContent ∈
      (handle_gemini_response_stream envOk gateOff [Ev.frag " "] "u" initState).1 := by
  have h := blank_stream_no_content_notice envOk gateOff [Ev.frag " "] "u" initState
    (by decide) (by decide)
  exact ⟨h.1, h.2.1⟩

/-- C6: when fragment production raises mid-stream, the renderer ends in
the failed state: the placeholder is deleted, an error notice is emitted,
no finalization chunk is sent, and the history is left unchanged (no turn
persisted). -/
theorem stream_error_failed_no_history (env : SendEnv) (gate : Nat → Bool)
    (evs : List Ev) (user : String) (s : BotState) (he : Ev.err ∈ evs) :
    (handle_gemini_response_stream env gate evs user s).2 = s ∧
    Action.deletePh ∈ (handle_gemini_response_stream env gate evs user s).1 ∧
    Action.notice Notice.genError ∈ (handle_gemini_response_stream env gate evs user s).1 ∧
    ∀ text mode, Action.send text mode ∉ (handle_gemini_response_stream env gate evs user s).1 := by
  have hf := streamLoop_err gate evs 0 "" he
  have htr : handle_gemini_response_stream env gate evs user s =
      (Action.placeholder :: (streamLoop gate evs 0 "").2.1 ++
        [Action.deletePh, Action.notice Notice.genError], s) := by
    unfold handle_gemini_response_stream
    rw [hf]
    simp
  rw [htr]
  refine ⟨rfl, by simp, by simp, ?_⟩
  intro text mode hmem
  rcases List.mem_cons.mp hmem with h1 | h1
  · exact Action.noConfusion h1
  rcases List.mem_append.mp h1 with h2 | h2
  · obtain ⟨t, hts⟩ := streamLoop_edits gate evs 0 "" _ h2
    exact Action.noConfusion hts
  · simp at h2

/-- C6 witness: a stream that raises before producing any fragment leaves
the store unchanged and emits the placeholder deletion and the error
notice. -/
theorem stream_error_failed_no_history_witness :
    (handle_gemini_response_stream envOk gateOff [Ev.err] "u" demoState).2 = demoState ∧
    Action.notice Notice.genError ∈
      (handle_gemini_response_stream envOk gateOff [Ev.err] "u" demoState).1 := by
  have h := stream_error_failed_no_history envOk gateOff [Ev.err] "u" demoState (by decide)
  exact ⟨h.1, h.2.2.1⟩

/-- C4 counterexample: in an environment where every outbound send raises a
markup/formatting parse error, the finalization chunk `hi` is attempted
exactly once, with HTML formatting, and is never retried as unformatted
plain text — the claimed plain-text retry does not exist in the code — and
no history is persisted. -/
theorem no_plain_retry_counterexample :
    ((handle_gemini_response_stream envParseFail gateOff [Ev.frag "hi"] "u" initState).1.count
        (Action.send "hi" PMode.html) = 1) ∧
    ((handle_gemini_response_stream envParseFail gateOff [Ev.frag "hi"] "u" initState).1.count
        (Action.send "hi" PMode.plain) = 0) ∧
    (handle_gemini_response_stream envParseFail gateOff [Ev.frag "hi"] "u" initState).2 =
      initState := by
  decide

/-- C4 (amended): if sending a finalization chunk fails — with a
markup/formatting parse error or any other error — the renderer does not
retry it in any mode (every chunk send attempt uses HTML formatting, so in
particular no plain-text retry is ever attempted); the failure is surfaced
as an error notice and finalization is aborted without persisting
history. -/
theorem send_failure_aborts_finalization (env : SendEnv) (gate : Nat → Bool)
    (evs : List Ev) (user : String) (s : BotState) (e : SendErr)
    (hne : Ev.err ∉ evs)
    (hfail : (send_long_message env (accumText evs)).2 = some e) :
    (handle_gemini_response_stream env gate evs user s).2 = s ∧
    Action.notice Notice.genError ∈ (handle_gemini_response_stream env gate evs user s).1 ∧
    ∀ text, Action.send text PMode.plain ∉ (handle_gemini_response_stream env gate evs user s).1 := by
  have hok := streamLoop_ok gate evs 0 "" hne
  have hfull : (streamLoop gate evs 0 "").1 = accumText evs := by
    rw [hok.1, String.empty_append]
  have hnb : isBlank (accumText evs) = false := by
    cases hcon : isBlank (accumText evs) with
    | false => rfl
    | true =>
      rw [send_long_message, if_pos hcon] at hfail
      exact absurd hfail (by simp)
  cases hsl : send_long_message env (accumText evs) with
  | mk acts oerr =>
    rw [hsl] at hfail
    cases oerr with
    | none => exact absurd hfail (by simp)
    | some e2 =>
      have htr : handle_gemini_response_stream env gate evs user s =
          (Action.placeholder :: (streamLoop gate evs 0 "").2.1 ++
            [Action.deletePh] ++ acts ++
            [Action.deletePh, Action.notice Notice.genError], s) := by
        unfold handle_gemini_response_stream
        rw [hok.2, hfull, hnb, hsl]
        simp
      rw [htr]
      refine ⟨rfl, by simp, ?_⟩
      intro text hmem
      rcases List.mem_cons.mp hmem with h1 | h1
      · exact Action.noConfusion h1
      rcases List.mem_append.mp h1 with h2 | h2
      · rcases List.mem_append.mp h2 with h3 | h3
        · rcases List.mem_append.mp h3 with h4 | h4
          · obtain ⟨t, hts⟩ := streamLoop_edits gate evs 0 "" _ h4
            exact Action.noConfusion hts
          · exact Action.noConfusion (List.mem_singleton.mp h4)
        · have hmem2 : Action.send text PMode.plain ∈
              (send_long_message env (accumText evs)).1 := by
            rw [hsl]
            exact h3
          obtain ⟨c, hc⟩ := send_long_message_modes env (accumText evs) _ hmem2
          simp at hc
      · simp at h2

/-- C4 witness for the amended claim: with every send failing on a parse
error, the stream producing `hi` ends with the error notice and an
unchanged store. -/
theorem send_failure_aborts_finalization_witness :
    (handle_gemini_response_stream envParseFail gateOff [Ev.frag "hi"] "u" demoState).2 =
      demoState ∧
    Action.notice Notice.genError ∈
      (handle_gemini_response_stream envParseFail gateOff [Ev.frag "hi"] "u" demoState).1 := by
  have h := send_failure_aborts_finalization envParseFail gateOff [Ev.frag "hi"] "u"
    demoState SendErr.parse (by decide) (by decide)
  exact ⟨h.1, h.2.1⟩

end Gbot
